import Mathlib

/-!
Verification of the computational core of the OEE production dashboard
(`src/dashboard.py`): data loading/validation, filtering, and the
group-by aggregations (KPIs, downtime Pareto, machine comparison).

Dates are modelled as integers (any totally ordered calendar-point type
works, and `pd.Timestamp` comparisons are a total order); numeric cells
are modelled as rationals; category labels are strings.
-/

namespace OEE

/-- One row of the loaded dataframe, after the `date` column has been
converted to a calendar-date type (dashboard.py line 51). -/
structure Row where
  date : Int
  machine : String
  shift : String
  planned_time_min : ℚ
  downtime_min : ℚ
  run_time_min : ℚ
  availability : ℚ
  performance : ℚ
  quality : ℚ
  oee : ℚ
  total_parts : Int
  good_parts : Int
  downtime_reason : String
deriving DecidableEq, Repr

/-- `df['machine'].unique().tolist()` keeps the first occurrence of each
label, in order of first appearance.  `uniqueFirst` models that. -/
def uniqueFirst : List String → List String
  | [] => []
  | x :: xs => x :: (uniqueFirst xs).filter (fun y => !(y == x))

/-- dashboard.py line 131: `all_machines = df['machine'].unique().tolist()`. -/
def all_machines (df : List Row) : List String :=
  uniqueFirst (df.map (·.machine))

/-- dashboard.py line 139: `all_shifts = df['shift'].unique().tolist()`. -/
def all_shifts (df : List Row) : List String :=
  uniqueFirst (df.map (·.shift))

/-- dashboard.py line 147: `min_date = df['date'].min()` (`NaT`, i.e. `none`,
on an empty frame). -/
def min_date (df : List Row) : Option Int :=
  (df.map (·.date)).min?

/-- dashboard.py line 148: `max_date = df['date'].max()`. -/
def max_date (df : List Row) : Option Int :=
  (df.map (·.date)).max?

/-- dashboard.py lines 159-164: the boolean-mask filter
`df[(df['machine'].isin(selected_machines)) & (df['shift'].isin(selected_shifts))
   & (df['date'] >= start) & (df['date'] <= end)]`. -/
def filtered_df (df : List Row) (selected_machines selected_shifts : List String)
    (start_date end_date : Int) : List Row :=
  df.filter (fun r =>
    selected_machines.contains r.machine && selected_shifts.contains r.shift &&
      decide (start_date ≤ r.date) && decide (r.date ≤ end_date))

theorem mem_uniqueFirst (y : String) : ∀ l : List String, y ∈ uniqueFirst l ↔ y ∈ l := by
  intro l
  induction l with
  | nil => simp [uniqueFirst]
  | cons x xs ih =>
    by_cases hxy : y = x
    · subst hxy
      simp [uniqueFirst]
    · simp only [uniqueFirst, List.mem_cons, List.mem_filter, ih, Bool.not_eq_eq_eq_not,
        Bool.not_true, beq_eq_false_iff_ne, ne_eq, decide_eq_true_eq]
      constructor
      · rintro (h | ⟨h, _⟩)
        · exact absurd h hxy
        · exact Or.inr h
      · rintro (h | h)
        · exact absurd h hxy
        · exact Or.inr ⟨h, by simpa using hxy⟩

theorem nodup_uniqueFirst : ∀ l : List String, (uniqueFirst l).Nodup := by
  intro l
  induction l with
  | nil => simp [uniqueFirst]
  | cons x xs ih =>
    refine List.Nodup.cons ?_ (List.Nodup.filter _ ih)
    intro hx
    have := (List.mem_filter.mp hx).2
    simp at this

/-- The Prop-level version of the row predicate of `filtered_df`. -/
theorem filtered_df_row_pred (selected_machines selected_shifts : List String)
    (start_date end_date : Int) (r : Row) :
    (selected_machines.contains r.machine && selected_shifts.contains r.shift &&
       decide (start_date ≤ r.date) && decide (r.date ≤ end_date)) = true ↔
      (r.machine ∈ selected_machines ∧ r.shift ∈ selected_shifts ∧
        start_date ≤ r.date ∧ r.date ≤ end_date) := by
  simp [List.contains, and_assoc]

/-- Python's `str.endswith(p)`: `p` is a suffix of `s` (modelled on the
character lists so that it evaluates in the kernel). -/
def endsWithStr (s p : String) : Bool :=
  List.isSuffixOf p.data s.data

/-- A raw row of an uploaded file: the `date` cell is still text, the other
cells are already typed (the loader does not coerce or validate them). -/
structure RawRow where
  date_str : String
  machine : String
  shift : String
  planned_time_min : ℚ
  downtime_min : ℚ
  run_time_min : ℚ
  availability : ℚ
  performance : ℚ
  quality : ℚ
  oee : ℚ
  total_parts : Int
  good_parts : Int
  downtime_reason : String
deriving DecidableEq

/-- An uploaded file as seen by `load_uploaded_file`: a file name, the column
set of the parsed frame, and its rows. -/
structure UploadedFile where
  name : String
  columns : List String
  rows : List RawRow
deriving DecidableEq

/-- dashboard.py lines 38-43: the fixed required-column list. -/
def required_columns : List String :=
  ["date", "machine", "shift",
   "planned_time_min", "downtime_min", "run_time_min",
   "availability", "performance", "quality",
   "oee", "total_parts", "good_parts", "downtime_reason"]

/-- dashboard.py line 45: `missing = [col for col in required_columns if col not
in df.columns]` — the required columns absent from the uploaded frame, in
required-column order. -/
def missingColumnsOf (columns : List String) : List String :=
  required_columns.filter (fun c => !(columns.contains c))

/-- The outcome of `load_uploaded_file` (dashboard.py lines 28-53): the
`(None, error-message)` returns become error constructors, the
`(df, success)` return becomes `ok`. -/
inductive LoadResult where
  | unsupportedFormat : LoadResult
  | missingColumns : List String → LoadResult
  | dateParseError : LoadResult
  | ok : List Row → LoadResult
deriving DecidableEq

/-- Whether the load succeeded. -/
def LoadResult.isOk : LoadResult → Bool
  | .ok _ => true
  | _ => false

/-- Conversion of one raw row by `pd.to_datetime` on the `date` column
(dashboard.py line 51): every other cell is carried over unchanged. -/
def convertRow (parse_date : String → Option Int) (rr : RawRow) : Option Row :=
  (parse_date rr.date_str).map (fun d =>
    { date := d, machine := rr.machine, shift := rr.shift,
      planned_time_min := rr.planned_time_min, downtime_min := rr.downtime_min,
      run_time_min := rr.run_time_min, availability := rr.availability,
      performance := rr.performance, quality := rr.quality, oee := rr.oee,
      total_parts := rr.total_parts, good_parts := rr.good_parts,
      downtime_reason := rr.downtime_reason })

/-- dashboard.py lines 28-53, `load_uploaded_file`: extension check, then the
required-column check, then `pd.to_datetime` on the `date` column (which fails
when any cell is unparseable).  `parse_date` is the date parser. -/
def load_uploaded_file (parse_date : String → Option Int) (f : UploadedFile) : LoadResult :=
  if endsWithStr f.name ".csv" || endsWithStr f.name ".xlsx" || endsWithStr f.name ".xls" then
    if missingColumnsOf f.columns = [] then
      match f.rows.mapM (convertRow parse_date) with
      | some rows => .ok rows
      | none => .dateParseError
    else .missingColumns (missingColumnsOf f.columns)
  else .unsupportedFormat

/-- What one script run renders (dashboard.py lines 92-103): `st.stop()` ends
the run with no dashboard, otherwise the dashboard is rendered from a table. -/
inductive Rendered where
  | stopped : Rendered
  | dashboard : List Row → Rendered
deriving DecidableEq

/-- dashboard.py lines 92-103: with an upload present the script adopts it on
success and calls `st.stop()` on any load error; with no upload it renders from
the default dataset. -/
def sessionRender (parse_date : String → Option Int) (uploaded : Option UploadedFile)
    (default_df : List Row) : Rendered :=
  match uploaded with
  | some f =>
    match load_uploaded_file parse_date f with
    | .ok df => .dashboard df
    | _ => .stopped
  | none => .dashboard default_df

/-- A baseline record used to build concrete test tables. -/
def row0 : Row :=
  { date := 0, machine := "M1", shift := "A", planned_time_min := 480, downtime_min := 0,
    run_time_min := 480, availability := 1, performance := 1, quality := 1, oee := 1,
    total_parts := 100, good_parts := 100, downtime_reason := "" }

/-- C1: for every loaded table and filter selection, `filtered_df` returns exactly
the order-preserving subsequence of records whose machine is selected, whose shift
is selected and whose date lies in the inclusive range; an empty machine or shift
selection yields an empty result, and the degenerate range `start = end` keeps all
matching records of that date. -/
theorem filter_engine_correct (df : List Row) (M S : List String) (s e : Int) :
    (filtered_df df M S s e).Sublist df
  ∧ (∀ r, r ∈ filtered_df df M S s e ↔
      r ∈ df ∧ (r.machine ∈ M ∧ r.shift ∈ S ∧ s ≤ r.date ∧ r.date ≤ e))
  ∧ (∀ r, (filtered_df df M S s e).count r =
      if r.machine ∈ M ∧ r.shift ∈ S ∧ s ≤ r.date ∧ r.date ≤ e then df.count r else 0)
  ∧ (M = [] → filtered_df df M S s e = [])
  ∧ (S = [] → filtered_df df M S s e = [])
  ∧ (∀ r ∈ df, r.machine ∈ M → r.shift ∈ S → r.date = s → r ∈ filtered_df df M S s s) := by
  refine ⟨List.filter_sublist _, ?_, ?_, ?_, ?_, ?_⟩
  · intro r
    rw [filtered_df, List.mem_filter, filtered_df_row_pred]
  · intro r
    by_cases h : r.machine ∈ M ∧ r.shift ∈ S ∧ s ≤ r.date ∧ r.date ≤ e
    · rw [if_pos h, filtered_df]
      exact List.count_filter ((filtered_df_row_pred M S s e r).mpr h)
    · rw [if_neg h]
      refine List.count_eq_zero.mpr ?_
      intro hmem
      exact h (((filtered_df_row_pred M S s e r).mp (List.mem_filter.mp hmem).2))
  · intro hM
    subst hM
    simp [filtered_df, List.contains]
  · intro hS
    subst hS
    simp [filtered_df, List.contains]
  · intro r hr hm hs hd
    rw [filtered_df, List.mem_filter]
    exact ⟨hr, (filtered_df_row_pred M S s s r).mpr ⟨hm, hs, le_of_eq hd.symm, le_of_eq hd⟩⟩

/-- C2: filtering with the full machine set, the full shift set and the date range
`[min_date, max_date]` of the table returns the original table unchanged. -/
theorem full_selection_identity (df : List Row) (mn mx : Int)
    (hmn : min_date df = some mn) (hmx : max_date df = some mx) :
    filtered_df df (all_machines df) (all_shifts df) mn mx = df := by
  have hmn' : (df.map (·.date)).min? = some mn := hmn
  have hmx' : (df.map (·.date)).max? = some mx := hmx
  have hlo : ∀ b ∈ df.map (·.date), mn ≤ b :=
    (List.le_min?_iff (fun _ _ _ => le_min_iff) hmn').mp (le_refl mn)
  have hhi : ∀ b ∈ df.map (·.date), b ≤ mx :=
    (List.max?_le_iff (fun _ _ _ => max_le_iff) hmx').mp (le_refl mx)
  rw [filtered_df, List.filter_eq_self]
  intro r hr
  rw [filtered_df_row_pred]
  exact ⟨(mem_uniqueFirst _ _).mpr (List.mem_map_of_mem _ hr),
    (mem_uniqueFirst _ _).mpr (List.mem_map_of_mem _ hr),
    hlo _ (List.mem_map_of_mem _ hr), hhi _ (List.mem_map_of_mem _ hr)⟩

/-- A concrete three-row table over two machines and two shifts. -/
def tbl2 : List Row :=
  [{ row0 with date := 3 }, { row0 with date := 1, machine := "M2" },
   { row0 with date := 2, shift := "B" }]

/-- Witness for C2 at a concrete table: the full selection leaves `tbl2` unchanged. -/
theorem full_selection_identity_witness :
    min_date tbl2 = some 1 ∧ max_date tbl2 = some 3 ∧
      filtered_df tbl2 (all_machines tbl2) (all_shifts tbl2) 1 3 = tbl2 :=
  ⟨by decide, by decide, full_selection_identity tbl2 1 3 (by decide) (by decide)⟩

/-- C3: for a recognised file, the validator succeeds exactly when every
required column is present (extras allowed), and otherwise the upload is
rejected reporting exactly the set of missing required column names. -/
theorem schema_validator_correct (parse_date : String → Option Int) (f : UploadedFile)
    (hext : (endsWithStr f.name ".csv" || endsWithStr f.name ".xlsx" ||
      endsWithStr f.name ".xls") = true) :
    (missingColumnsOf f.columns = [] ↔ ∀ c ∈ required_columns, c ∈ f.columns)
  ∧ (∀ c, c ∈ missingColumnsOf f.columns ↔ c ∈ required_columns ∧ c ∉ f.columns)
  ∧ (missingColumnsOf f.columns ≠ [] →
      load_uploaded_file parse_date f = .missingColumns (missingColumnsOf f.columns))
  ∧ (missingColumnsOf f.columns = [] →
      ∀ ms, load_uploaded_file parse_date f ≠ .missingColumns ms) := by
  refine ⟨?_, ?_, ?_, ?_⟩
  · simp [missingColumnsOf, List.filter_eq_nil_iff, List.contains]
  · intro c
    simp [missingColumnsOf, List.mem_filter, List.contains]
  · intro hne
    rw [load_uploaded_file, if_pos hext, if_neg hne]
  · intro hnil ms
    rw [load_uploaded_file, if_pos hext, if_pos hnil]
    cases f.rows.mapM (convertRow parse_date) <;> simp

/-- The columns of an upload that lacks only `quality`. -/
def cols_noq : List String :=
  ["date", "machine", "shift", "planned_time_min", "downtime_min", "run_time_min",
   "availability", "performance", "oee", "total_parts", "good_parts", "downtime_reason"]

/-- A CSV upload missing only the `quality` column. -/
def file_noq : UploadedFile := { name := "upload.csv", columns := cols_noq, rows := [] }

/-- A date parser that accepts every cell. -/
def parse0 : String → Option Int := fun _ => some 0

/-- Witness for C3: the file missing only `quality` is rejected listing exactly
`quality`. -/
theorem schema_validator_correct_witness :
    ((endsWithStr file_noq.name ".csv" || endsWithStr file_noq.name ".xlsx" ||
       endsWithStr file_noq.name ".xls") = true)
  ∧ ((missingColumnsOf file_noq.columns = [] ↔ ∀ c ∈ required_columns, c ∈ file_noq.columns)
    ∧ (∀ c, c ∈ missingColumnsOf file_noq.columns ↔
        c ∈ required_columns ∧ c ∉ file_noq.columns)
    ∧ (missingColumnsOf file_noq.columns ≠ [] →
        load_uploaded_file parse0 file_noq = .missingColumns (missingColumnsOf file_noq.columns))
    ∧ (missingColumnsOf file_noq.columns = [] →
        ∀ ms, load_uploaded_file parse0 file_noq ≠ .missingColumns ms))
  ∧ missingColumnsOf file_noq.columns = ["quality"]
  ∧ load_uploaded_file parse0 file_noq = .missingColumns ["quality"] :=
  ⟨by decide, schema_validator_correct parse0 file_noq (by decide), by decide, by decide⟩

/-- C10: a recognised upload missing the `date` column is rejected with the
missing-columns error for every possible behaviour of the date parser — the
column check runs before date conversion, so a missing-columns failure is never
masked by a date-parse failure. -/
theorem missing_columns_checked_before_date_parse (parse_date : String → Option Int)
    (f : UploadedFile)
    (hext : (endsWithStr f.name ".csv" || endsWithStr f.name ".xlsx" ||
      endsWithStr f.name ".xls") = true)
    (hdate : "date" ∉ f.columns) :
    load_uploaded_file parse_date f = .missingColumns (missingColumnsOf f.columns)
  ∧ "date" ∈ missingColumnsOf f.columns := by
  have hmem : "date" ∈ missingColumnsOf f.columns := by
    rw [missingColumnsOf, List.mem_filter]
    exact ⟨by simp [required_columns], by simpa [List.contains] using hdate⟩
  have hne : missingColumnsOf f.columns ≠ [] := by
    intro h
    rw [h] at hmem
    exact absurd hmem (List.not_mem_nil _)
  rw [load_uploaded_file, if_pos hext, if_neg hne]
  exact ⟨rfl, hmem⟩

/-- A raw row whose date cell no parser will accept. -/
def raw0 : RawRow :=
  { date_str := "not-a-date", machine := "M1", shift := "A", planned_time_min := 480,
    downtime_min := 0, run_time_min := 480, availability := 1, performance := 1,
    quality := 1, oee := 1, total_parts := 100, good_parts := 100, downtime_reason := "" }

/-- A spreadsheet upload whose only column is `machine` (so `date` is missing). -/
def file_nodate : UploadedFile := { name := "d.xlsx", columns := ["machine"], rows := [raw0] }

/-- A date parser that rejects every cell. -/
def parseFail : String → Option Int := fun _ => none

/-- Witness for C10: even with a parser that fails on every date cell, the file
missing `date` is rejected with the missing-columns error, not a date-parse
error. -/
theorem missing_columns_checked_before_date_parse_witness :
    ((endsWithStr file_nodate.name ".csv" || endsWithStr file_nodate.name ".xlsx" ||
       endsWithStr file_nodate.name ".xls") = true)
  ∧ "date" ∉ file_nodate.columns
  ∧ (load_uploaded_file parseFail file_nodate = .missingColumns (missingColumnsOf file_nodate.columns)
      ∧ "date" ∈ missingColumnsOf file_nodate.columns)
  ∧ load_uploaded_file parseFail file_nodate ≠ .dateParseError :=
  ⟨by decide, by decide,
    missing_columns_checked_before_date_parse parseFail file_nodate (by decide) (by decide),
    by decide⟩

/-- C8 (amended): on any load-time error the bad file is rejected and the script
run is stopped — the dashboard renders nothing on that run rather than falling
back to the previously active table. -/
theorem load_error_stops_render (parse_date : String → Option Int) (f : UploadedFile)
    (default_df : List Row) (h : (load_uploaded_file parse_date f).isOk = false) :
    sessionRender parse_date (some f) default_df = .stopped := by
  unfold sessionRender
  cases hl : load_uploaded_file parse_date f <;> simp_all [LoadResult.isOk]

/-- A CSV upload whose only column is `date` (missing twelve required columns). -/
def file_badcols : UploadedFile := { name := "bad.csv", columns := ["date"], rows := [] }

/-- Witness for C8 (amended): the upload missing columns stops the run. -/
theorem load_error_stops_render_witness :
    ((load_uploaded_file parse0 file_badcols).isOk = false)
  ∧ sessionRender parse0 (some file_badcols) [row0] = .stopped :=
  ⟨by decide, load_error_stops_render parse0 file_badcols [row0] (by decide)⟩

/-- Counterexample to C8 as stated: with a previously active table present, a
bad upload does not leave the dashboard rendering that table — the run is
stopped and nothing is rendered. -/
theorem session_stop_counterexample :
    sessionRender parse0 (some file_badcols) [row0] = .stopped
  ∧ sessionRender parse0 (some file_badcols) [row0] ≠ .dashboard [row0] := by
  constructor <;> decide

/-- Lexicographic comparison of character lists by code point — the order
pandas uses on string group keys. -/
def lexLe : List Char → List Char → Bool
  | [], _ => true
  | _ :: _, [] => false
  | a :: as, b :: bs => if a = b then lexLe as bs else decide (a < b)

/-- Lexicographic order on strings (`lexLe` on the character data). -/
def strle (a b : String) : Prop := lexLe a.data b.data = true

instance : DecidableRel strle := fun a b =>
  inferInstanceAs (Decidable (lexLe a.data b.data = true))

theorem lexLe_total : ∀ a b : List Char, lexLe a b = true ∨ lexLe b a = true := by
  intro a
  induction a with
  | nil => intro b; exact Or.inl rfl
  | cons x xs ih =>
    intro b
    cases b with
    | nil => exact Or.inr rfl
    | cons y ys =>
      by_cases hxy : x = y
      · subst hxy
        rcases ih ys with h | h
        · exact Or.inl (by simp [lexLe, h])
        · exact Or.inr (by simp [lexLe, h])
      · rcases lt_or_gt_of_ne hxy with h | h
        · exact Or.inl (by simp [lexLe, hxy, h])
        · exact Or.inr (by simp [lexLe, Ne.symm hxy, h])

theorem lexLe_trans : ∀ a b c : List Char,
    lexLe a b = true → lexLe b c = true → lexLe a c = true := by
  intro a
  induction a with
  | nil => intro b c _ _; rfl
  | cons x xs ih =>
    intro b c hab hbc
    cases b with
    | nil => simp [lexLe] at hab
    | cons y ys =>
      cases c with
      | nil => simp [lexLe] at hbc
      | cons z zs =>
        by_cases hxy : x = y <;> by_cases hyz : y = z
        · subst hxy; subst hyz
          simp only [lexLe, if_pos rfl] at *
          exact ih ys zs hab hbc
        · subst hxy
          simp only [lexLe, if_pos rfl, if_neg hyz] at *
          simp [lexLe, hyz, hbc]
        · subst hyz
          simp only [lexLe, if_neg hxy, if_pos rfl] at *
          simp [lexLe, hxy, hab]
        · simp only [lexLe, if_neg hxy, if_neg hyz, decide_eq_true_eq] at hab hbc
          have hxz : x < z := lt_trans hab hbc
          simp [lexLe, ne_of_lt hxz, hxz]

instance : IsTotal String strle := ⟨fun a b => lexLe_total a.data b.data⟩

instance : IsTrans String strle := ⟨fun a b c => lexLe_trans a.data b.data c.data⟩

/-- `pandas.Series.mean`: `NaN` (here `none`) on an empty series, otherwise the
arithmetic mean. -/
def seriesMean (xs : List ℚ) : Option ℚ :=
  if xs.isEmpty then none else some (xs.sum / (xs.length : ℚ))

/-- dashboard.py line 171: `avg_oee = filtered_df['oee'].mean()`. -/
def avg_oee (df : List Row) : Option ℚ := seriesMean (df.map (·.oee))

/-- dashboard.py line 172. -/
def avg_availability (df : List Row) : Option ℚ := seriesMean (df.map (·.availability))

/-- dashboard.py line 173. -/
def avg_performance (df : List Row) : Option ℚ := seriesMean (df.map (·.performance))

/-- dashboard.py line 174. -/
def avg_quality (df : List Row) : Option ℚ := seriesMean (df.map (·.quality))

/-- dashboard.py line 175: `total_good_parts = filtered_df['good_parts'].sum()`. -/
def total_good_parts (df : List Row) : Int := (df.map (·.good_parts)).sum

/-- dashboard.py line 176: `total_downtime = filtered_df['downtime_min'].sum()`. -/
def total_downtime (df : List Row) : ℚ := (df.map (·.downtime_min)).sum

theorem seriesMean_eq (xs : List ℚ) (h : xs ≠ []) :
    seriesMean xs = some (xs.sum / (xs.length : ℚ)) := by
  simp [seriesMean, h]

/-- The per-machine means of the four rate columns
(`groupby('machine')[['oee','availability','performance','quality']].mean()`,
value part). -/
def machineMeans (df : List Row) (m : String) :
    Option ℚ × Option ℚ × Option ℚ × Option ℚ :=
  (seriesMean ((df.filter (fun r => r.machine == m)).map (·.oee)),
   seriesMean ((df.filter (fun r => r.machine == m)).map (·.availability)),
   seriesMean ((df.filter (fun r => r.machine == m)).map (·.performance)),
   seriesMean ((df.filter (fun r => r.machine == m)).map (·.quality)))

/-- dashboard.py line 302: `machine_oee = filtered_df.groupby('machine')
[['oee','availability','performance','quality']].mean().reset_index()` —
group keys sorted ascending (pandas `groupby` default), one mean row each. -/
def machine_oee (df : List Row) :
    List (String × (Option ℚ × Option ℚ × Option ℚ × Option ℚ)) :=
  (List.insertionSort strle (uniqueFirst (df.map (·.machine)))).map
    (fun m => (m, machineMeans df m))

theorem lookup_map_graph {β : Type} (f : String → β) (m : String) :
    ∀ keys : List String, m ∈ keys →
      (keys.map (fun k => (k, f k))).lookup m = some (f m) := by
  intro keys
  induction keys with
  | nil => intro h; exact absurd h (List.not_mem_nil m)
  | cons k ks ih =>
    intro h
    by_cases hmk : m = k
    · subst hmk
      simp [List.lookup]
    · have hbeq : (m == k) = false := beq_eq_false_iff_ne.mpr hmk
      have hmem : m ∈ ks := by
        rcases List.mem_cons.mp h with h' | h'
        · exact absurd h' hmk
        · exact h'
      simp only [List.map_cons, List.lookup, hbeq]
      exact ih hmem

/-- C9: the machine comparison groups rows by `machine` and reports, for every
machine present in the filtered table, the arithmetic mean (sum divided by
count) of `oee`, `availability`, `performance` and `quality` over that
machine's rows. -/
theorem machine_comparison_mean (df : List Row) (m : String)
    (hm : m ∈ df.map (·.machine)) :
    (machine_oee df).lookup m = some (machineMeans df m)
  ∧ machineMeans df m =
      (some (((df.filter (fun r => r.machine == m)).map (·.oee)).sum /
          ((df.filter (fun r => r.machine == m)).length : ℚ)),
       some (((df.filter (fun r => r.machine == m)).map (·.availability)).sum /
          ((df.filter (fun r => r.machine == m)).length : ℚ)),
       some (((df.filter (fun r => r.machine == m)).map (·.performance)).sum /
          ((df.filter (fun r => r.machine == m)).length : ℚ)),
       some (((df.filter (fun r => r.machine == m)).map (·.quality)).sum /
          ((df.filter (fun r => r.machine == m)).length : ℚ))) := by
  have hmk : m ∈ List.insertionSort strle (uniqueFirst (df.map (·.machine))) := by
    rw [(List.perm_insertionSort strle _).mem_iff, mem_uniqueFirst]
    exact hm
  have hg : df.filter (fun r => r.machine == m) ≠ [] := by
    rcases List.mem_map.mp hm with ⟨r, hr, hrm⟩
    have : r ∈ df.filter (fun r => r.machine == m) :=
      List.mem_filter.mpr ⟨hr, by simp [hrm]⟩
    exact List.ne_nil_of_mem this
  constructor
  · exact lookup_map_graph (machineMeans df) m _ hmk
  · rw [machineMeans]
    rw [seriesMean_eq _ (by simpa using hg), seriesMean_eq _ (by simpa using hg),
      seriesMean_eq _ (by simpa using hg), seriesMean_eq _ (by simpa using hg)]
    simp [List.length_map]

/-- End-to-end scenario 1: two machines over one shift and three dates, with
`oee` values `[0.9, 0.8, 0.7]` for `M1` and `[0.6, 0.5, 0.4]` for `M2`. -/
def scen1 : List Row :=
  [{ row0 with date := 1, oee := 0.9 }, { row0 with date := 2, oee := 0.8 },
   { row0 with date := 3, oee := 0.7 },
   { row0 with date := 1, machine := "M2", oee := 0.6 },
   { row0 with date := 2, machine := "M2", oee := 0.5 },
   { row0 with date := 3, machine := "M2", oee := 0.4 }]

/-- Witness for C9 on scenario 1: the per-machine mean OEE is `M1 = 0.8`
(and, checked directly, `M2 = 0.5`). -/
theorem machine_comparison_mean_witness :
    ("M1" ∈ scen1.map (·.machine))
  ∧ ((machine_oee scen1).lookup "M1" = some (machineMeans scen1 "M1")
     ∧ machineMeans scen1 "M1" =
        (some (((scen1.filter (fun r => r.machine == "M1")).map (·.oee)).sum /
            ((scen1.filter (fun r => r.machine == "M1")).length : ℚ)),
         some (((scen1.filter (fun r => r.machine == "M1")).map (·.availability)).sum /
            ((scen1.filter (fun r => r.machine == "M1")).length : ℚ)),
         some (((scen1.filter (fun r => r.machine == "M1")).map (·.performance)).sum /
            ((scen1.filter (fun r => r.machine == "M1")).length : ℚ)),
         some (((scen1.filter (fun r => r.machine == "M1")).map (·.quality)).sum /
            ((scen1.filter (fun r => r.machine == "M1")).length : ℚ))))
  ∧ (machineMeans scen1 "M1").1 = some 0.8
  ∧ (machineMeans scen1 "M2").1 = some 0.5 := by
  refine ⟨by decide, machine_comparison_mean scen1 "M1" (by decide), ?_, ?_⟩
  · simp +decide [machineMeans, scen1, row0, seriesMean]
    norm_num
  · simp +decide [machineMeans, scen1, row0, seriesMean]
    norm_num

/-- Records dated well outside the filter range used in scenario 4. -/
def scen7 : List Row :=
  [{ row0 with date := 10 }, { row0 with date := 11 }, { row0 with date := 12 }]

/-- C7 (evaluating the code at the failing input): a date range narrower than
any record's date yields an empty filtered table, and the scalar KPI means come
back `NaN` (`none`) — the code has no empty-dataset fallback, so `NaN` flows
into the rendered percentage. -/
theorem empty_filter_kpi_nan :
    filtered_df scen7 ["M1"] ["A"] 1 2 = []
  ∧ avg_oee (filtered_df scen7 ["M1"] ["A"] 1 2) = none
  ∧ avg_availability (filtered_df scen7 ["M1"] ["A"] 1 2) = none
  ∧ avg_performance (filtered_df scen7 ["M1"] ["A"] 1 2) = none
  ∧ avg_quality (filtered_df scen7 ["M1"] ["A"] 1 2) = none := by
  refine ⟨by decide, by decide, by decide, by decide, by decide⟩

/-- Comparison of reason groups by summed downtime — the sort key of
`sort_values` on the grouped series. -/
def valLE (p q : String × ℚ) : Prop := p.2 ≤ q.2

instance : DecidableRel valLE := fun p q => inferInstanceAs (Decidable (p.2 ≤ q.2))

instance : IsTotal (String × ℚ) valLE := ⟨fun p q => le_total p.2 q.2⟩

instance : IsTrans (String × ℚ) valLE := ⟨fun _ _ _ h1 h2 => le_trans h1 h2⟩

/-- The summed `downtime_min` of the rows with a given `downtime_reason`. -/
def reasonSum (df : List Row) (reason : String) : ℚ :=
  ((df.filter (fun r => r.downtime_reason == reason)).map (·.downtime_min)).sum

/-- dashboard.py line 258: `filtered_df.groupby('downtime_reason')
['downtime_min'].sum()` — group keys sorted ascending (pandas default), each
with its summed downtime. -/
def groupedByReason (df : List Row) : List (String × ℚ) :=
  (List.insertionSort strle (uniqueFirst (df.map (·.downtime_reason)))).map
    (fun reason => (reason, reasonSum df reason))

/-- dashboard.py line 259: `pareto.sort_values(ascending=False)` — pandas
computes a stable ascending argsort of the values and reverses it. -/
def pareto (df : List Row) : List (String × ℚ) :=
  (List.insertionSort valLE (groupedByReason df)).reverse

/-- Running sums starting from `acc` (`Series.cumsum`). -/
def cumFrom (acc : ℚ) : List ℚ → List ℚ
  | [] => []
  | x :: xs => (acc + x) :: cumFrom (acc + x) xs

/-- dashboard.py line 262: `pareto['downtime_min'].cumsum() /
pareto['downtime_min'].sum() * 100`.  Float division by a zero total produces
`NaN`/`inf`, modelled as `none`. -/
def cumulative_pct (df : List Row) : List (Option ℚ) :=
  (cumFrom 0 ((pareto df).map Prod.snd)).map
    (fun c => if ((pareto df).map Prod.snd).sum = 0 then none
      else some (c / ((pareto df).map Prod.snd).sum * 100))

theorem reasonSum_cons (x : Row) (d : List Row) (s : String) :
    reasonSum (x :: d) s =
      (if x.downtime_reason = s then x.downtime_min else 0) + reasonSum d s := by
  by_cases h : x.downtime_reason = s
  · simp [reasonSum, List.filter_cons, h]
  · simp [reasonSum, List.filter_cons, h]

theorem sum_map_add_split (rs : List String) (f g : String → ℚ) :
    (rs.map (fun s => f s + g s)).sum = (rs.map f).sum + (rs.map g).sum := by
  induction rs with
  | nil => simp
  | cons a l ih =>
    simp only [List.map_cons, List.sum_cons, ih]
    ring

theorem sum_map_delta_zero (rs : List String) (a : String) (c : ℚ) (ha : a ∉ rs) :
    (rs.map (fun s => if a = s then c else 0)).sum = 0 := by
  induction rs with
  | nil => simp
  | cons b l ih =>
    have hab : a ≠ b := fun h => ha (h ▸ List.mem_cons_self b l)
    have hal : a ∉ l := fun h => ha (List.mem_cons_of_mem _ h)
    simp [hab, ih hal]

theorem sum_map_delta (rs : List String) (a : String) (c : ℚ) (hnd : rs.Nodup)
    (ha : a ∈ rs) :
    (rs.map (fun s => if a = s then c else 0)).sum = c := by
  induction rs with
  | nil => exact absurd ha (List.not_mem_nil a)
  | cons b l ih =>
    rcases List.mem_cons.mp ha with h | h
    · subst h
      have hnotl : a ∉ l := (List.nodup_cons.mp hnd).1
      simp [sum_map_delta_zero l a c hnotl]
    · have hab : a ≠ b := by
        intro hh
        subst hh
        exact (List.nodup_cons.mp hnd).1 h
      simp [hab, ih (List.nodup_cons.mp hnd).2 h]

/-- Grouping is a partition: the group sums over any duplicate-free cover of
the reasons add up to the total downtime. -/
theorem partition_sum (df : List Row) (rs : List String) (hnd : rs.Nodup)
    (hall : ∀ r ∈ df, r.downtime_reason ∈ rs) :
    (rs.map (reasonSum df)).sum = total_downtime df := by
  induction df with
  | nil =>
    rw [total_downtime]
    refine List.sum_eq_zero ?_
    intro x hx
    rcases List.mem_map.mp hx with ⟨s, _, rfl⟩
    simp [reasonSum]
  | cons x d ih =>
    have h1 : rs.map (reasonSum (x :: d)) =
        rs.map (fun s =>
          (if x.downtime_reason = s then x.downtime_min else 0) + reasonSum d s) :=
      List.map_congr_left (fun s _ => reasonSum_cons x d s)
    rw [h1, sum_map_add_split, sum_map_delta rs _ _ hnd (hall x (List.mem_cons_self x d)),
      ih (fun r hr => hall r (List.mem_cons_of_mem x hr))]
    simp [total_downtime]

theorem pareto_perm_grouped (df : List Row) : (pareto df).Perm (groupedByReason df) :=
  (List.reverse_perm _).trans (List.perm_insertionSort valLE _)

theorem pareto_mem_val (df : List Row) (p : String × ℚ) (hp : p ∈ pareto df) :
    p.2 = reasonSum df p.1 ∧ p.1 ∈ uniqueFirst (df.map (·.downtime_reason)) := by
  have hmem := (pareto_perm_grouped df).mem_iff.mp hp
  rw [groupedByReason] at hmem
  rcases List.mem_map.mp hmem with ⟨s, hs, rfl⟩
  exact ⟨rfl, (List.perm_insertionSort strle _).mem_iff.mp hs⟩

theorem pareto_snd_sum (df : List Row) :
    ((pareto df).map Prod.snd).sum = total_downtime df := by
  rw [((pareto_perm_grouped df).map Prod.snd).sum_eq, groupedByReason, List.map_map]
  have h2 : (List.insertionSort strle (uniqueFirst (df.map (·.downtime_reason)))).Perm
      (uniqueFirst (df.map (·.downtime_reason))) := List.perm_insertionSort _ _
  have h3 : (List.insertionSort strle (uniqueFirst (df.map (·.downtime_reason)))).map
        (Prod.snd ∘ fun s => (s, reasonSum df s)) =
      (List.insertionSort strle (uniqueFirst (df.map (·.downtime_reason)))).map
        (reasonSum df) := rfl
  rw [h3, (h2.map (reasonSum df)).sum_eq]
  refine partition_sum df _ ?_ ?_
  · exact nodup_uniqueFirst _
  · intro r hr
    exact (mem_uniqueFirst _ _).mpr (List.mem_map_of_mem _ hr)

theorem pareto_sorted_desc (df : List Row) :
    List.Sorted (fun p q : String × ℚ => q.2 ≤ p.2) (pareto df) := by
  have hs : List.Sorted valLE (List.insertionSort valLE (groupedByReason df)) :=
    List.sorted_insertionSort valLE _
  rw [pareto]
  exact List.pairwise_reverse.mpr hs

theorem reasonSum_nonneg (df : List Row) (h : ∀ r ∈ df, 0 ≤ r.downtime_min)
    (s : String) : 0 ≤ reasonSum df s := by
  refine List.sum_nonneg ?_
  intro x hx
  rcases List.mem_map.mp hx with ⟨r, hr, rfl⟩
  exact h r (List.mem_filter.mp hr).1

theorem cumFrom_chain (l : List ℚ) : ∀ acc : ℚ, (∀ x ∈ l, 0 ≤ x) →
    List.Chain' (· ≤ ·) (cumFrom acc l) := by
  induction l with
  | nil => intro acc _; simp [cumFrom]
  | cons x xs ih =>
    intro acc h
    rw [cumFrom, List.chain'_cons']
    constructor
    · intro b hb
      cases xs with
      | nil => simp [cumFrom] at hb
      | cons y ys =>
        rw [cumFrom] at hb
        simp only [List.head?_cons, Option.mem_def, Option.some.injEq] at hb
        have hy : 0 ≤ y := h y (by simp)
        rw [← hb]
        linarith
    · exact ih (acc + x) (fun z hz => h z (List.mem_cons_of_mem _ hz))

theorem cumFrom_getLast? (l : List ℚ) : l ≠ [] → ∀ acc : ℚ,
    (cumFrom acc l).getLast? = some (acc + l.sum) := by
  induction l with
  | nil => intro h; exact absurd rfl h
  | cons x xs ih =>
    intro _ acc
    cases xs with
    | nil => simp [cumFrom]
    | cons y ys =>
      have h2 := ih (by simp) (acc + x)
      rw [cumFrom, cumFrom, List.getLast?_cons_cons]
      rw [cumFrom] at h2
      rw [h2]
      simp only [List.sum_cons, Option.some.injEq]
      ring

/-- C4: the Pareto groups rows by `downtime_reason` with per-group summed
downtime, the group sums add up to the total downtime of the filtered set, the
groups are sorted descending by summed downtime, and whenever the total
downtime is positive the cumulative-percentage sequence is defined everywhere,
non-decreasing, and ends exactly at 100. -/
theorem pareto_correct (df : List Row) (hnn : ∀ r ∈ df, 0 ≤ r.downtime_min) :
    ((pareto df).map Prod.snd).sum = total_downtime df
  ∧ (∀ p ∈ pareto df, p.2 = reasonSum df p.1)
  ∧ ((pareto df).map Prod.fst).Perm (uniqueFirst (df.map (·.downtime_reason)))
  ∧ List.Sorted (fun p q : String × ℚ => q.2 ≤ p.2) (pareto df)
  ∧ (0 < total_downtime df →
      (∀ o ∈ cumulative_pct df, ∃ x, o = some x)
    ∧ List.Chain' (fun a b : Option ℚ => ∀ x ∈ a, ∀ y ∈ b, x ≤ y) (cumulative_pct df)
    ∧ (cumulative_pct df).getLast? = some (some 100)) := by
  have hsum := pareto_snd_sum df
  refine ⟨hsum, fun p hp => (pareto_mem_val df p hp).1, ?_, pareto_sorted_desc df, ?_⟩
  · have h1 := (pareto_perm_grouped df).map Prod.fst
    rw [groupedByReason, List.map_map] at h1
    have h2 : (List.insertionSort strle (uniqueFirst (df.map (·.downtime_reason)))).map
          (Prod.fst ∘ fun s => (s, reasonSum df s)) =
        List.insertionSort strle (uniqueFirst (df.map (·.downtime_reason))) :=
      List.map_id _
    rw [h2] at h1
    exact h1.trans (List.perm_insertionSort _ _)
  · intro h0
    have hne : ((pareto df).map Prod.snd).sum ≠ 0 := by
      rw [hsum]
      exact ne_of_gt h0
    have hpos : 0 < ((pareto df).map Prod.snd).sum := by
      rw [hsum]
      exact h0
    have hmap : cumulative_pct df =
        (cumFrom 0 ((pareto df).map Prod.snd)).map
          (fun c => some (c / ((pareto df).map Prod.snd).sum * 100)) := by
      rw [cumulative_pct]
      exact List.map_congr_left (fun c _ => by rw [if_neg hne])
    have hvnn : ∀ x ∈ (pareto df).map Prod.snd, 0 ≤ x := by
      intro x hx
      rcases List.mem_map.mp hx with ⟨p, hp, rfl⟩
      rw [(pareto_mem_val df p hp).1]
      exact reasonSum_nonneg df hnn p.1
    refine ⟨?_, ?_, ?_⟩
    · intro o ho
      rw [hmap] at ho
      rcases List.mem_map.mp ho with ⟨c, _, rfl⟩
      exact ⟨_, rfl⟩
    · rw [hmap, List.chain'_map]
      refine (cumFrom_chain _ 0 hvnn).imp ?_
      intro a b hab x hx y hy
      simp only [Option.mem_def, Option.some.injEq] at hx hy
      rw [← hx, ← hy]
      refine mul_le_mul_of_nonneg_right ?_ (by norm_num)
      exact (div_le_div_iff_of_pos_right hpos).mpr hab
    · have hvne : (pareto df).map Prod.snd ≠ [] := by
        intro h
        rw [h] at hsum
        simp only [List.sum_nil] at hsum
        rw [← hsum] at h0
        exact lt_irrefl 0 h0
      rw [hmap, List.getLast?_map, cumFrom_getLast? _ hvne 0]
      simp only [Option.map_some', Option.some.injEq, zero_add]
      rw [div_self hne, one_mul]

/-- End-to-end scenario 2: downtime reasons `A:50, B:30, C:20` (total 100). -/
def scen2 : List Row :=
  [{ row0 with downtime_min := 50, downtime_reason := "A" },
   { row0 with downtime_min := 30, downtime_reason := "B" },
   { row0 with downtime_min := 20, downtime_reason := "C" }]

/-- Witness for C4 on scenario 2: the Pareto order is `A, B, C` and the
cumulative percentages are `[50, 80, 100]`. -/
theorem pareto_correct_witness :
    ((∀ r ∈ scen2, 0 ≤ r.downtime_min)
    ∧ (((pareto scen2).map Prod.snd).sum = total_downtime scen2
      ∧ (∀ p ∈ pareto scen2, p.2 = reasonSum scen2 p.1)
      ∧ ((pareto scen2).map Prod.fst).Perm (uniqueFirst (scen2.map (·.downtime_reason)))
      ∧ List.Sorted (fun p q : String × ℚ => q.2 ≤ p.2) (pareto scen2)
      ∧ (0 < total_downtime scen2 →
          (∀ o ∈ cumulative_pct scen2, ∃ x, o = some x)
        ∧ List.Chain' (fun a b : Option ℚ => ∀ x ∈ a, ∀ y ∈ b, x ≤ y) (cumulative_pct scen2)
        ∧ (cumulative_pct scen2).getLast? = some (some 100))))
  ∧ pareto scen2 = [("A", 50), ("B", 30), ("C", 20)]
  ∧ cumulative_pct scen2 = [some 50, some 80, some 100] := by
  have hnn : ∀ r ∈ scen2, 0 ≤ r.downtime_min := by
    intro r hr
    fin_cases hr <;> norm_num [row0]
  refine ⟨⟨hnn, pareto_correct scen2 hnn⟩, ?_, ?_⟩
  · norm_num +decide [pareto, groupedByReason, uniqueFirst, reasonSum, scen2, row0, valLE,
      strle, lexLe]
  · norm_num +decide [cumulative_pct, cumFrom, pareto, groupedByReason, uniqueFirst,
      reasonSum, scen2, row0, valLE, strle, lexLe]

/-- A filtered table whose total downtime is zero: one row with
`downtime_min = 0` and reason `A`. -/
def zero_downtime_df : List Row := [{ row0 with downtime_reason := "A" }]

/-- C6 (evaluating the code at the failing input): with a zero total downtime
the group exists, but its cumulative percentage is the undefined result of
dividing by the zero grand total (`NaN`, modelled `none`) — not an explicitly
defined value. -/
theorem pareto_zero_total_undefined :
    total_downtime zero_downtime_df = 0
  ∧ pareto zero_downtime_df = [("A", 0)]
  ∧ cumulative_pct zero_downtime_df = [none] := by
  refine ⟨?_, ?_, ?_⟩
  · norm_num [total_downtime, zero_downtime_df, row0]
  · norm_num +decide [pareto, groupedByReason, uniqueFirst, reasonSum, zero_downtime_df,
      row0, valLE, strle, lexLe]
  · norm_num +decide [cumulative_pct, cumFrom, pareto, groupedByReason, uniqueFirst,
      reasonSum, zero_downtime_df, row0, valLE, strle, lexLe]

/-- Three tied reasons (equal summed downtime) first appearing in the order
`C, A, B`. -/
def scen5 : List Row :=
  [{ row0 with downtime_min := 10, downtime_reason := "C" },
   { row0 with downtime_min := 10, downtime_reason := "A" },
   { row0 with downtime_min := 10, downtime_reason := "B" }]

/-- Counterexample to C5 as stated: with tied reasons first appearing in the
order `C, A, B`, the Pareto order is `C, B, A` — not the first-appearance
order `C, A, B`. -/
theorem pareto_tie_counterexample :
    uniqueFirst (scen5.map (·.downtime_reason)) = ["C", "A", "B"]
  ∧ (pareto scen5).map Prod.fst = ["C", "B", "A"]
  ∧ ¬ ((pareto scen5).map Prod.fst = ["C", "A", "B"]) := by
  have h : (pareto scen5).map Prod.fst = ["C", "B", "A"] := by
    norm_num +decide [pareto, groupedByReason, uniqueFirst, reasonSum, scen5, row0, valLE,
      strle, lexLe]
  exact ⟨by decide, h, by rw [h]; decide⟩

/-- C5 (amended): the Pareto sort does not order tied groups by first
appearance; the code guarantees only that the Pareto table is a permutation of
the reason groups arranged in descending order of summed downtime.  The
relative order of tied groups is unspecified — `sort_values` defaults to an
unstable quicksort argsort — and for small tied runs it is observed as the
reverse of the ascending (alphabetical) `groupby` order, as in the
counterexample. -/
theorem pareto_desc_only (df : List Row) :
    (pareto df).Perm (groupedByReason df)
  ∧ List.Sorted (fun p q : String × ℚ => q.2 ≤ p.2) (pareto df) :=
  ⟨pareto_perm_grouped df, pareto_sorted_desc df⟩

end OEE
